import Mathlib

/-!
Verification of the coordinate-tracking and event-dispatch core of the
`background-drifter` repository.

The development shallowly embeds, in Lean:
- the pixel→normalized coordinate transform of `MouseTracker.calculateMovement`
  (src/assets/ts/utils/mouseTracker.ts and its `havePointer` variant);
- the `MouseTracker` bootstrap/tracking lifecycle as an explicit state machine
  driven by environment events (overlay `mouseenter`, the bootstrap `setTimeout`,
  window `pointermove`);
- the `EventEmitter` publish/subscribe bus (`on`, `off`, `toggle`, `emit`),
  with JS `Map` insertion-order semantics modelled by an association list and
  handler identity (JS `===` on function objects) modelled by natural numbers;
- the validated `EventEmitter` variant whose `validateParams` result is ignored
  by its callers;
- `ParallaxBackground.calculateMovement`, the displacement computation of the
  background-drift consumer.

JS numbers are modelled as rationals (ℚ); `Math.round` and `toFixed(2)`
are modelled with their ECMAScript rounding rules (half away from zero for
`toFixed`, half toward +∞ for `Math.round`).
-/

namespace BackgroundDrifter

/-- `Math.round`: round to nearest integer, ties toward +∞. -/
def roundJS (q : ℚ) : ℤ := Int.floor (q + 1/2)

/-- `parseFloat(q.toFixed(2))`: round to 2 decimal digits, to nearest,
ties away from zero (ECMAScript `Number.prototype.toFixed` takes the
absolute value first and picks the larger candidate on ties). -/
def toFixed2 (q : ℚ) : ℚ :=
  if q < 0 then -(((Int.floor ((-q) * 100 + 1/2) : ℤ) : ℚ) / 100)
  else ((Int.floor (q * 100 + 1/2) : ℤ) : ℚ) / 100

namespace MouseTracker

/-- `MouseTracker.calculateMovement(x, y)` (mouseTracker.ts): the pure
three-step per-axis transform. `w`/`h` stand for `window.innerWidth` /
`window.innerHeight`, read fresh at every call; the code stores the result
into the tracker's `mousePosition` object, here it is returned as a pair. -/
def calculateMovement (x y w h : ℚ) : ℚ × ℚ :=
  let mouseXPercentage := x / w
  let mouseYPercentage := y / h
  let centeredMouseX := mouseXPercentage - 1/2
  let centeredMouseY := mouseYPercentage - 1/2
  let normalizedX := centeredMouseX * 2
  let normalizedY := centeredMouseY * 2
  (toFixed2 normalizedX, toFixed2 normalizedY)

/-- Kinds of bus events the tracker publishes: `'init'` and `'mousemove'`
(the spec's `movement`). -/
inductive EvKind
  | init
  | mousemove
  deriving DecidableEq, Repr

/-- One publication on the tracker's bus. `value` is the content of the
tracker's `mousePosition` object at the moment of the `emit` call. The code
passes `this.mousePosition` itself (a live reference to the tracker's single
mutable object), so the object a handler received always reads the CURRENT
`mousePos` of the state; `value` records what it contained at emission time. -/
structure Emitted where
  kind : EvKind
  value : ℚ × ℚ
  deriving DecidableEq, Repr

/-- The observable state of one `MouseTracker` instance.
`overlayPresent`: the bootstrap overlay is attached to the document;
`overlayCreated`: `createInitialTracker` ran at least once;
`enterArmed`: the `{once: true}` `mouseenter` listener has not fired yet;
`timeoutPending`: the bootstrap `setTimeout` has not fired yet;
`moveListener`: the persistent window `pointermove` listener is attached;
`emitted`: the publication trace, in order. -/
structure TrackerState where
  mousePos : ℚ × ℚ
  overlayPresent : Bool
  overlayCreated : Bool
  enterArmed : Bool
  timeoutPending : Bool
  moveListener : Bool
  emitted : List Emitted
  deriving DecidableEq, Repr

/-- Environment stimuli that can reach the tracker's listeners after
construction: the overlay `mouseenter` event, the bootstrap timer elapsing,
and a window `pointermove` sample. `w`/`h` are the viewport dimensions the
handler reads fresh from `window` when it runs. -/
inductive EnvEvent
  | enterOverlay (x y w h : ℚ)
  | timeout
  | pointerMove (x y w h : ℚ)
  deriving DecidableEq, Repr

/-- Construction: `new MouseTracker()` runs `init()` synchronously.
With pointer capability it runs `setInitialMousePosition` (create overlay,
arm the once-only `mouseenter` listener, schedule the timeout) and then
`watchMousePosition` (attach the `pointermove` listener); nothing is
published yet. Without pointer capability it publishes `init` with the
initial `mousePosition` `(0, 0)` and attaches nothing. -/
def mkTracker (havePointer : Bool) : TrackerState :=
  if havePointer then
    { mousePos := (0, 0), overlayPresent := true, overlayCreated := true,
      enterArmed := true, timeoutPending := true, moveListener := true,
      emitted := [] }
  else
    { mousePos := (0, 0), overlayPresent := false, overlayCreated := false,
      enterArmed := false, timeoutPending := false, moveListener := false,
      emitted := [⟨.init, (0, 0)⟩] }

/-- `returnMousePosition` closure: `resolve(this.mousePosition)` (the promise
value is never consumed, so resolving has no observable effect), then
`destroyInitialTracker()` (idempotent overlay removal), then
`this.emit('init', this.mousePosition)`. Note the `'init'` emission is NOT
guarded: it happens on every call, not only on the first. -/
def returnMousePosition (s : TrackerState) : TrackerState :=
  let s1 := { s with overlayPresent := false }
  { s1 with emitted := s1.emitted ++ [⟨.init, s1.mousePos⟩] }

/-- One environment event delivered to the tracker's listeners.
`enterOverlay` runs `setMousePosition` (only while the overlay is attached
and the `once` listener armed): `calculateMovement` then
`returnMousePosition`. `timeout` runs `returnMousePosition` directly (the
timer is scheduled once and never cleared). `pointerMove` runs
`calculateAndEmitMousePosition`: `calculateMovement` then
`emit('mousemove', this.mousePosition)`. -/
def trackerStep (s : TrackerState) (e : EnvEvent) : TrackerState :=
  match e with
  | .enterOverlay x y w h =>
      if s.overlayPresent && s.enterArmed then
        returnMousePosition
          { s with mousePos := calculateMovement x y w h, enterArmed := false }
      else s
  | .timeout =>
      if s.timeoutPending then
        returnMousePosition { s with timeoutPending := false }
      else s
  | .pointerMove x y w h =>
      if s.moveListener then
        let s1 := { s with mousePos := calculateMovement x y w h }
        { s1 with emitted := s1.emitted ++ [⟨.mousemove, s1.mousePos⟩] }
      else s

/-- Deliver a sequence of environment events in order. -/
def trackerRun (s : TrackerState) (events : List EnvEvent) : TrackerState :=
  events.foldl trackerStep s

/-- Number of `'init'` publications in a trace. -/
def countInit (l : List Emitted) : ℕ :=
  l.countP (fun e => decide (e.kind = EvKind.init))

/-- Number of `'mousemove'` publications in a trace. -/
def countMove (l : List Emitted) : ℕ :=
  l.countP (fun e => decide (e.kind = EvKind.mousemove))

/-- Whether a trace contains an `'init'` publication. -/
def containsInit (l : List Emitted) : Bool :=
  l.any (fun e => decide (e.kind = EvKind.init))

/-- Helper for `initFirst`: `seen` records whether an `'init'` has already
occurred in the part of the trace already consumed. -/
def initFirstAux : Bool → List Emitted → Bool
  | _, [] => true
  | seen, e :: rest =>
    match e.kind with
    | .init => initFirstAux true rest
    | .mousemove => seen && initFirstAux seen rest

/-- A trace is well ordered when every `'mousemove'` publication is preceded
by an `'init'` publication. -/
def initFirst (l : List Emitted) : Bool := initFirstAux false l

end MouseTracker

/-! JS `Map` semantics: insertion-ordered key/value pairs. `get` returns the
value of the first (only) matching key; `set` replaces in place if the key is
present and appends otherwise. -/

/-- `Map.prototype.get` (as an `Option`). -/
def lookupEv {κ α : Type} [DecidableEq κ] : List (κ × α) → κ → Option α
  | [], _ => none
  | (k', v') :: rest, k => if k' = k then some v' else lookupEv rest k

/-- `Map.prototype.set`. -/
def setEv {κ α : Type} [DecidableEq κ] : List (κ × α) → κ → α → List (κ × α)
  | [], k, v => [(k, v)]
  | (k', v') :: rest, k, v =>
    if k' = k then (k, v) :: rest else (k', v') :: setEv rest k v

/-- Handler identity: JS compares listener callbacks with `===` (reference
equality of function objects), modelled by a natural-number identifier. -/
abbrev Handler := ℕ

namespace EventEmitter

/-! `EventEmitter` from src/assets/ts/utils/eventEmitter.ts (the variant
without argument validation, used by the tracker and the parallax features). -/

/-- The private `events: Map<string, EventCallback[]>`. -/
abbrev EMap := List (String × List Handler)

/-- `on(eventName, callback)`: ensure a listener array exists for the event,
then push the callback onto it. -/
def on' (m : EMap) (e : String) (h : Handler) : EMap :=
  let m1 := if (lookupEv m e).isSome then m else setEv m e []
  setEv m1 e (((lookupEv m1 e).getD []) ++ [h])

/-- `off(eventName, callback)`: if the event has a listener array, replace it
with a NEW array keeping the listeners different from `callback` (note:
`filter` drops every occurrence, and the stored array is replaced rather than
mutated in place). -/
def off (m : EMap) (e : String) (h : Handler) : EMap :=
  match lookupEv m e with
  | none => m
  | some listeners => setEv m e (listeners.filter (fun x => decide (x ≠ h)))

/-- `toggle(eventName, callback)`: `off` when the current listener array
contains the callback, `on` otherwise. -/
def toggle (m : EMap) (e : String) (h : Handler) : EMap :=
  let listeners := (lookupEv m e).getD []
  if h ∈ listeners then off m e h else on' m e h

/-- The per-event subscription state observable through the bus: the ordered
handler sequence for an event (an event absent from the map and an event
mapped to an empty array both dispatch to nobody). -/
def seqOf (m : EMap) (e : String) : List Handler := (lookupEv m e).getD []

/-- What a handler may do to the bus while it is being invoked mid-dispatch
(this is what the `once` wrapper does: it calls `off` for itself; handlers
may also subscribe or toggle others). -/
inductive BusOp
  | onOp (e : String) (h : Handler)
  | offOp (e : String) (h : Handler)
  | toggleOp (e : String) (h : Handler)

/-- Apply one bus operation. -/
def applyOp (m : EMap) : BusOp → EMap
  | .onOp e h => on' m e h
  | .offOp e h => off m e h
  | .toggleOp e h => toggle m e h

/-- Apply a handler's bus operations in order. -/
def applyOps (m : EMap) : List BusOp → EMap
  | [] => m
  | op :: rest => applyOps (applyOp m op) rest

/-- Invoke the snapshot of handlers in order (`handlers.forEach`): each
invocation may change the subscription state (`beh h` is what handler `h`
does to the bus), but the iterated array is the one captured when the
dispatch started — `off` replaces the stored array with a fresh filtered
array and `forEach` does not visit elements appended after it starts, so the
snapshot is unaffected. Returns the invocation order and the final state. -/
def invokeAll (beh : Handler → List BusOp) :
    List Handler → EMap → List Handler × EMap
  | [], m => ([], m)
  | h :: rest, m =>
    let m1 := applyOps m (beh h)
    let p := invokeAll beh rest m1
    (h :: p.1, p.2)

/-- `emit(eventName, ...args)`: look up the listener array; if it is missing
or empty return `false`; otherwise `forEach` over it. Result: invoked
handlers in order, final subscription state, and the boolean return. -/
def emit (beh : Handler → List BusOp) (m : EMap) (e : String) :
    List Handler × EMap × Bool :=
  let handlers := (lookupEv m e).getD []
  if handlers.isEmpty then ([], m, false)
  else
    let p := invokeAll beh handlers m
    (p.1, p.2, true)

end EventEmitter

namespace ValidatedEmitter

/-! The `EventEmitter` variant with `validateParams` (src/unnamed/part_011):
`on`/`off` call `validateParams(eventName, callback)` but DISCARD its result,
so the warning is logged and the call then proceeds regardless. -/

/-- An argument passed where a string event name is expected: either an
actual string or some non-string value. -/
inductive JSVal
  | str (s : String)
  | notStr (n : ℤ)
  deriving DecidableEq, Repr

/-- An argument passed where a callback is expected: either a callable
function object or some non-callable value. -/
inductive JSCallback
  | fn (h : Handler)
  | notFn (n : ℤ)
  deriving DecidableEq, Repr

/-- Emitter state: the `#events` map plus the log of `console.warn` calls. -/
structure VState where
  events : List (JSVal × List JSCallback)
  warnings : List String
  deriving DecidableEq, Repr

/-- `validateParams(eventName, callback)`: warn (and return early) when the
event name is not a string; otherwise warn when the callback is not a
function. Its only effect is the warning — the caller ignores the return. -/
def validateParams (eventName : JSVal) (callback : JSCallback) : List String :=
  match eventName with
  | .notStr _ => ["Event name must be a string"]
  | .str _ =>
    match callback with
    | .notFn _ => ["Callback must be a function"]
    | .fn _ => []

/-- `on(eventName, callback)` of the validated variant: runs
`validateParams` (collecting its warning), then registers the callback
unconditionally — the validation result is never checked. -/
def vOn (s : VState) (eventName : JSVal) (callback : JSCallback) : VState :=
  let warns := validateParams eventName callback
  let m := s.events
  let m1 := if (lookupEv m eventName).isSome then m else setEv m eventName []
  { events := setEv m1 eventName (((lookupEv m1 eventName).getD []) ++ [callback]),
    warnings := s.warnings ++ warns }

/-- Outcome of `emit`. -/
inductive EmitOutcome
  | warnedNonStringName
  | noHandlers
  | completed
  | threwTypeError
  deriving DecidableEq, Repr

/-- `handlers.forEach((callback) => callback(...args))`: invoking a
non-callable value raises a `TypeError`, which propagates out of `forEach`
and aborts the dispatch. -/
def invokeCallbacks : List JSCallback → EmitOutcome
  | [] => .completed
  | .fn _ :: rest => invokeCallbacks rest
  | .notFn _ :: _ => .threwTypeError

/-- `emit(eventName, ...args)` of the validated variant: warns and returns
when the event name is not a string; otherwise returns `false` when no
handler is registered, else invokes the handlers. -/
def vEmit (s : VState) (eventName : JSVal) : EmitOutcome :=
  match eventName with
  | .notStr _ => .warnedNonStringName
  | .str _ =>
    let handlers := (lookupEv s.events eventName).getD []
    if handlers.isEmpty then .noHandlers
    else invokeCallbacks handlers

end ValidatedEmitter

namespace ParallaxBackground

/-- `maxShiftPercent = 75` (`maxMovement` in the src/assets variant). -/
def maxShiftPercent : ℚ := 75

/-- `ParallaxBackground.calculateMovement(mouseXPosition, mouseYPosition)`:
scale the normalized position by the maximum shift percentage, convert the
percentage to pixels against the current viewport dimensions `w`, `h`
(`window.innerWidth`/`innerHeight`, read fresh), and negate the rounded
result for the opposite-direction parallax. Returns the pair
`(targetBackgroundX, targetBackgroundY)`. -/
def calculateMovement (mouseXPosition mouseYPosition w h : ℚ) : ℤ × ℤ :=
  let horizontalMovement := mouseXPosition * maxShiftPercent
  let verticalMovement := mouseYPosition * maxShiftPercent
  let targetXInPx := horizontalMovement / 100 * w
  let targetYInPx := verticalMovement / 100 * h
  (-(roundJS targetXInPx), -(roundJS targetYInPx))

end ParallaxBackground

/-! Range of the rounding step. -/

lemma toFixed2_bounds (q : ℚ) (h1 : -1 ≤ q) (h2 : q ≤ 1) :
    -1 ≤ toFixed2 q ∧ toFixed2 q ≤ 1 := by
  unfold toFixed2
  split_ifs with hneg
  · have hub : Int.floor ((-q) * 100 + 1/2) ≤ 100 := by
      have hlt : (-q) * 100 + 1/2 < ((101 : ℤ) : ℚ) := by push_cast; linarith
      have := Int.floor_lt.mpr hlt
      omega
    have hlb : (0 : ℤ) ≤ Int.floor ((-q) * 100 + 1/2) := by
      apply Int.le_floor.mpr
      push_cast
      linarith
    have hubq : ((Int.floor ((-q) * 100 + 1/2) : ℤ) : ℚ) ≤ 100 := by exact_mod_cast hub
    have hlbq : (0 : ℚ) ≤ ((Int.floor ((-q) * 100 + 1/2) : ℤ) : ℚ) := by exact_mod_cast hlb
    constructor <;> linarith
  · have hq0 : 0 ≤ q := not_lt.mp hneg
    have hub : Int.floor (q * 100 + 1/2) ≤ 100 := by
      have hlt : q * 100 + 1/2 < ((101 : ℤ) : ℚ) := by push_cast; linarith
      have := Int.floor_lt.mpr hlt
      omega
    have hlb : (0 : ℤ) ≤ Int.floor (q * 100 + 1/2) := by
      apply Int.le_floor.mpr
      push_cast
      linarith
    have hubq : ((Int.floor (q * 100 + 1/2) : ℤ) : ℚ) ≤ 100 := by exact_mod_cast hub
    have hlbq : (0 : ℚ) ≤ ((Int.floor (q * 100 + 1/2) : ℤ) : ℚ) := by exact_mod_cast hlb
    constructor <;> linarith

lemma toFixed2_zero : toFixed2 0 = 0 := by
  norm_num [toFixed2, Int.floor_eq_iff]

lemma toFixed2_one : toFixed2 1 = 1 := by
  norm_num [toFixed2, Int.floor_eq_iff]

lemma toFixed2_neg_one : toFixed2 (-1) = -1 := by
  norm_num [toFixed2, Int.floor_eq_iff]

namespace MouseTracker

/-- C3: for every pixel coordinate (px, py) with 0 ≤ px ≤ viewportWidth and
0 ≤ py ≤ viewportHeight (both viewport dimensions positive), the
coordinate-normalization transform of `MouseTracker.calculateMovement`
(pixel/dimension, minus 0.5, times 2, rounded to 2 decimal places per axis)
yields a pair whose x and y components both lie in the closed interval
[-1, 1]. -/
theorem c3_normalized_position_in_range (px py w h : ℚ)
    (hpx0 : 0 ≤ px) (hpxw : px ≤ w) (hpy0 : 0 ≤ py) (hpyh : py ≤ h)
    (hw : 0 < w) (hh : 0 < h) :
    -1 ≤ (calculateMovement px py w h).1 ∧ (calculateMovement px py w h).1 ≤ 1 ∧
      -1 ≤ (calculateMovement px py w h).2 ∧ (calculateMovement px py w h).2 ≤ 1 := by
  have hx1 : 0 ≤ px / w := div_nonneg hpx0 hw.le
  have hx2 : px / w ≤ 1 := (div_le_one hw).mpr hpxw
  have hy1 : 0 ≤ py / h := div_nonneg hpy0 hh.le
  have hy2 : py / h ≤ 1 := (div_le_one hh).mpr hpyh
  have hbx := toFixed2_bounds ((px / w - 1/2) * 2) (by linarith) (by linarith)
  have hby := toFixed2_bounds ((py / h - 1/2) * 2) (by linarith) (by linarith)
  simp only [calculateMovement]
  exact ⟨hbx.1, hbx.2, hby.1, hby.2⟩

theorem c3_witness :
    ((0 : ℚ) ≤ 480 ∧ (480 : ℚ) ≤ 1920 ∧ (0 : ℚ) ≤ 810 ∧ (810 : ℚ) ≤ 1080 ∧
      (0 : ℚ) < 1920 ∧ (0 : ℚ) < 1080) ∧
    (-1 ≤ (calculateMovement 480 810 1920 1080).1 ∧
      (calculateMovement 480 810 1920 1080).1 ≤ 1 ∧
      -1 ≤ (calculateMovement 480 810 1920 1080).2 ∧
      (calculateMovement 480 810 1920 1080).2 ≤ 1) :=
  ⟨by norm_num,
    c3_normalized_position_in_range 480 810 1920 1080 (by norm_num) (by norm_num)
      (by norm_num) (by norm_num) (by norm_num) (by norm_num)⟩

/-- C4: for every positive viewport (w, h), the normalization transform maps
the three anchor points exactly: `calculateMovement(0, 0)` normalizes to
(-1, -1), `calculateMovement(w/2, h/2)` to (0, 0), and
`calculateMovement(w, h)` to (1, 1). -/
theorem c4_anchor_points (w h : ℚ) (hw : 0 < w) (hh : 0 < h) :
    calculateMovement 0 0 w h = (-1, -1) ∧
      calculateMovement (w/2) (h/2) w h = (0, 0) ∧
      calculateMovement w h w h = (1, 1) := by
  have hw0 : w ≠ 0 := ne_of_gt hw
  have hh0 : h ≠ 0 := ne_of_gt hh
  have e1x : ((0 : ℚ) / w - 1/2) * 2 = -1 := by rw [zero_div]; ring
  have e1y : ((0 : ℚ) / h - 1/2) * 2 = -1 := by rw [zero_div]; ring
  have e2x : (w / 2 / w - 1/2) * 2 = 0 := by field_simp; ring
  have e2y : (h / 2 / h - 1/2) * 2 = 0 := by field_simp; ring
  have e3x : (w / w - 1/2) * 2 = 1 := by rw [div_self hw0]; ring
  have e3y : (h / h - 1/2) * 2 = 1 := by rw [div_self hh0]; ring
  refine ⟨?_, ?_, ?_⟩ <;>
    simp only [calculateMovement, e1x, e1y, e2x, e2y, e3x, e3y,
      toFixed2_zero, toFixed2_one, toFixed2_neg_one]

theorem c4_witness :
    ((0 : ℚ) < 1920 ∧ (0 : ℚ) < 1080) ∧
    (calculateMovement 0 0 1920 1080 = (-1, -1) ∧
      calculateMovement 960 540 1920 1080 = (0, 0) ∧
      calculateMovement 1920 1080 1920 1080 = (1, 1)) :=
  ⟨by norm_num, by
    have := c4_anchor_points 1920 1080 (by norm_num) (by norm_num)
    norm_num at this ⊢
    exact this⟩

/-! Trace lemmas for the tracker state machine. -/

lemma initFirstAux_append (b : Bool) (l : List Emitted) (ev : Emitted)
    (hc : b = true ∨ containsInit l = true) (hf : initFirstAux b l = true) :
    initFirstAux b (l ++ [ev]) = true := by
  induction l generalizing b with
  | nil =>
    have hb : b = true := by
      rcases hc with hb | hb
      · exact hb
      · simp [containsInit] at hb
    subst hb
    cases hev : ev.kind <;> simp [initFirstAux, hev]
  | cons e rest ih =>
    cases he : e.kind with
    | init =>
      simp only [List.cons_append, initFirstAux, he] at hf ⊢
      exact ih true (Or.inl rfl) hf
    | mousemove =>
      simp only [List.cons_append, initFirstAux, he, Bool.and_eq_true] at hf ⊢
      refine ⟨hf.1, ?_⟩
      exact ih b (Or.inl hf.1) hf.2

lemma containsInit_append_single (l : List Emitted) (ev : Emitted)
    (hc : containsInit l = true) : containsInit (l ++ [ev]) = true := by
  simp only [containsInit, List.any_append, Bool.or_eq_true]
  exact Or.inl hc

lemma trackerStep_emitted_extends (s : TrackerState) (e : EnvEvent) :
    (trackerStep s e).emitted = s.emitted ∨
      ∃ ev, (trackerStep s e).emitted = s.emitted ++ [ev] := by
  cases e <;> simp only [trackerStep] <;> split
  · exact Or.inr ⟨_, rfl⟩
  · exact Or.inl rfl
  · exact Or.inr ⟨_, rfl⟩
  · exact Or.inl rfl
  · exact Or.inr ⟨_, rfl⟩
  · exact Or.inl rfl

lemma trackerStep_preserves_ordered (s : TrackerState) (e : EnvEvent)
    (h1 : containsInit s.emitted = true) (h2 : initFirst s.emitted = true) :
    containsInit (trackerStep s e).emitted = true ∧
      initFirst (trackerStep s e).emitted = true := by
  rcases trackerStep_emitted_extends s e with heq | ⟨ev, heq⟩
  · rw [heq]; exact ⟨h1, h2⟩
  · rw [heq]
    exact ⟨containsInit_append_single _ _ h1,
      initFirstAux_append false _ _ (Or.inr h1) h2⟩

lemma trackerRun_preserves_ordered (events : List EnvEvent) :
    ∀ s : TrackerState, containsInit s.emitted = true → initFirst s.emitted = true →
      containsInit (trackerRun s events).emitted = true ∧
        initFirst (trackerRun s events).emitted = true := by
  induction events with
  | nil => exact fun s h1 h2 => ⟨h1, h2⟩
  | cons e rest ih =>
    intro s h1 h2
    have hstep := trackerStep_preserves_ordered s e h1 h2
    exact ih (trackerStep s e) hstep.1 hstep.2

lemma trackerStep_fixed_no_pointer (e : EnvEvent) :
    trackerStep (mkTracker false) e = mkTracker false := by
  cases e <;> simp [trackerStep, mkTracker]

lemma trackerRun_fixed_no_pointer (events : List EnvEvent) :
    trackerRun (mkTracker false) events = mkTracker false := by
  induction events with
  | nil => rfl
  | cons e rest ih =>
    show trackerRun (trackerStep (mkTracker false) e) rest = mkTracker false
    rw [trackerStep_fixed_no_pointer]
    exact ih

/-- C1 (the code contradicts it): the claim says exactly one `'init'` is
published per tracker instance, the completion source that fires second
being a silent no-op. In the code, `returnMousePosition` emits `'init'` on
every call and the bootstrap `setTimeout` is never cleared, so when the
overlay `mouseenter` settles first the later timeout publishes a second
`'init'`; only the timeout-first order yields exactly one (the overlay is
removed, so its `mouseenter` can no longer fire). This theorem evaluates
both orders of the two completion sources. -/
theorem c1_duplicate_init_when_mouseenter_settles_first :
    countInit ((trackerRun (mkTracker true)
      [EnvEvent.enterOverlay 960 540 1920 1080, EnvEvent.timeout]).emitted) = 2 ∧
    countInit ((trackerRun (mkTracker true)
      [EnvEvent.timeout, EnvEvent.enterOverlay 960 540 1920 1080]).emitted) = 1 := by
  constructor <;>
    simp [trackerRun, trackerStep, mkTracker, returnMousePosition, countInit]

/-- C2 (counterexample): the `pointermove` listener is attached synchronously
during construction, before either bootstrap completion source has settled,
so a `pointermove` delivered first publishes `'mousemove'` with no preceding
`'init'` — a trace in which a movement publication precedes `init`. -/
theorem c2_counterexample :
    ((trackerRun (mkTracker true)
        [EnvEvent.pointerMove 960 540 1920 1080]).emitted).map Emitted.kind =
      [EvKind.mousemove] ∧
    initFirst ((trackerRun (mkTracker true)
        [EnvEvent.pointerMove 960 540 1920 1080]).emitted) = false := by
  constructor <;>
    simp [trackerRun, trackerStep, mkTracker, initFirst, initFirstAux]

/-- C2 (amended): provided no `pointermove` is delivered before the first
completion source settles — i.e. the first environment event after
construction is the overlay `mouseenter` or the bootstrap timeout — every
`'mousemove'` publication of the instance occurs strictly after an `'init'`
publication. -/
theorem c2_movement_after_init_when_no_early_pointermove
    (e0 : EnvEvent) (events : List EnvEvent)
    (hsettle : e0 = EnvEvent.timeout ∨ ∃ x y w h, e0 = EnvEvent.enterOverlay x y w h) :
    initFirst ((trackerRun (mkTracker true) (e0 :: events)).emitted) = true := by
  have hstep : containsInit (trackerStep (mkTracker true) e0).emitted = true ∧
      initFirst (trackerStep (mkTracker true) e0).emitted = true := by
    rcases hsettle with rfl | ⟨x, y, w, h, rfl⟩ <;>
      simp [trackerStep, mkTracker, returnMousePosition, containsInit,
        initFirst, initFirstAux]
  have : trackerRun (mkTracker true) (e0 :: events) =
      trackerRun (trackerStep (mkTracker true) e0) events := rfl
  rw [this]
  exact (trackerRun_preserves_ordered events _ hstep.1 hstep.2).2

theorem c2_witness :
    (EnvEvent.timeout = EnvEvent.timeout ∨
      ∃ x y w h, EnvEvent.timeout = EnvEvent.enterOverlay x y w h) ∧
    initFirst ((trackerRun (mkTracker true)
      [EnvEvent.timeout, EnvEvent.pointerMove 960 540 1920 1080]).emitted) = true :=
  ⟨Or.inl rfl,
    c2_movement_after_init_when_no_early_pointermove EnvEvent.timeout
      [EnvEvent.pointerMove 960 540 1920 1080] (Or.inl rfl)⟩

/-- C5: when the pointer-capability predicate is false at construction, the
tracker publishes `'init'` synchronously during construction carrying the
neutral position (0, 0), never creates the bootstrap overlay, and no
sequence of environment events can ever make it publish a `'mousemove'`
(nothing is armed, so every later stimulus is a no-op). -/
theorem c5_no_pointer_immediate_neutral_init (events : List EnvEvent) :
    (mkTracker false).emitted = [⟨EvKind.init, (0, 0)⟩] ∧
    (trackerRun (mkTracker false) events).emitted = [⟨EvKind.init, (0, 0)⟩] ∧
    (trackerRun (mkTracker false) events).overlayCreated = false ∧
    countMove ((trackerRun (mkTracker false) events).emitted) = 0 := by
  rw [trackerRun_fixed_no_pointer]
  refine ⟨rfl, rfl, rfl, ?_⟩
  simp [mkTracker, countMove]

/-- C9 (counterexample): the payload of every publication is
`this.mousePosition` itself — a live reference to the tracker's single
mutable object, whose current components are the state's `mousePos`. After
`'init'` is delivered carrying (0, 0), a later `pointermove` sample
overwrites the components of that very object to (1, 1): the x and y of a
position object already delivered to handlers do change. -/
theorem c9_counterexample :
    (trackerRun (mkTracker true)
        [EnvEvent.enterOverlay 960 540 1920 1080]).emitted =
      [⟨EvKind.init, (0, 0)⟩] ∧
    (trackerRun (mkTracker true)
        [EnvEvent.enterOverlay 960 540 1920 1080]).mousePos = (0, 0) ∧
    (trackerStep (trackerRun (mkTracker true)
        [EnvEvent.enterOverlay 960 540 1920 1080])
        (EnvEvent.pointerMove 1920 1080 1920 1080)).mousePos = (1, 1) ∧
    ((0 : ℚ), (0 : ℚ)) ≠ ((1 : ℚ), (1 : ℚ)) := by
  have h1 : calculateMovement 960 540 1920 1080 = ((0 : ℚ), (0 : ℚ)) := by
    norm_num [calculateMovement, toFixed2, Int.floor_eq_iff]
  have h2 : calculateMovement 1920 1080 1920 1080 = ((1 : ℚ), (1 : ℚ)) := by
    norm_num [calculateMovement, toFixed2, Int.floor_eq_iff]
  refine ⟨?_, ?_, ?_, by norm_num⟩ <;>
    simp [trackerRun, trackerStep, mkTracker, returnMousePosition, h1, h2]

/-- C9 (amended): handlers receive a live reference, not a value — the
components seen through an already-delivered payload change with every later
sample (see the counterexample). What is immutable is the emission itself:
the trace is append-only, so the value a payload carried at delivery time
(recorded in `Emitted.value`) is fixed once emitted. -/
theorem c9_delivered_values_fixed_in_trace (s : TrackerState)
    (events : List EnvEvent) :
    ∃ tail, (trackerRun s events).emitted = s.emitted ++ tail := by
  induction events generalizing s with
  | nil => exact ⟨[], by simp [trackerRun]⟩
  | cons e rest ih =>
    have hrun : trackerRun s (e :: rest) = trackerRun (trackerStep s e) rest := rfl
    rcases ih (trackerStep s e) with ⟨tail2, htail2⟩
    rcases trackerStep_emitted_extends s e with heq | ⟨ev, heq⟩
    · exact ⟨tail2, by rw [hrun, htail2, heq]⟩
    · exact ⟨[ev] ++ tail2, by rw [hrun, htail2, heq, List.append_assoc]⟩

end MouseTracker

/-! Lemmas about the JS `Map` model. -/

lemma lookupEv_setEv_self {κ α : Type} [DecidableEq κ] :
    ∀ (m : List (κ × α)) (k : κ) (v : α), lookupEv (setEv m k v) k = some v
  | [], k, v => by simp [setEv, lookupEv]
  | (k', v') :: rest, k, v => by
    by_cases hk : k' = k
    · simp [setEv, hk, lookupEv]
    · simp [setEv, hk, lookupEv, lookupEv_setEv_self rest k v]

lemma lookupEv_setEv_ne {κ α : Type} [DecidableEq κ] :
    ∀ (m : List (κ × α)) (k k2 : κ) (v : α), k2 ≠ k →
      lookupEv (setEv m k v) k2 = lookupEv m k2
  | [], k, k2, v, hne => by simp [setEv, lookupEv, Ne.symm hne]
  | (k', v') :: rest, k, k2, v, hne => by
    by_cases hk : k' = k
    · subst hk
      simp [setEv, lookupEv, Ne.symm hne]
    · by_cases hk2 : k' = k2
      · simp [setEv, hk, lookupEv, hk2, hne]
      · simp [setEv, hk, lookupEv, hk2, lookupEv_setEv_ne rest k k2 v hne]

namespace EventEmitter

lemma seqOf_setEv_self (m : EMap) (e : String) (v : List Handler) :
    seqOf (setEv m e v) e = v := by
  simp [seqOf, lookupEv_setEv_self]

lemma seqOf_setEv_ne (m : EMap) (e e2 : String) (v : List Handler)
    (hne : e2 ≠ e) : seqOf (setEv m e v) e2 = seqOf m e2 := by
  simp [seqOf, lookupEv_setEv_ne m e e2 v hne]

lemma seqOf_on_self (m : EMap) (e : String) (h : Handler) :
    seqOf (on' m e h) e = seqOf m e ++ [h] := by
  unfold on'
  cases hm : lookupEv m e with
  | none => simp [hm, seqOf, lookupEv_setEv_self]
  | some l => simp [hm, seqOf, lookupEv_setEv_self]

lemma seqOf_on_ne (m : EMap) (e e2 : String) (h : Handler) (hne : e2 ≠ e) :
    seqOf (on' m e h) e2 = seqOf m e2 := by
  unfold on'
  cases hm : lookupEv m e with
  | none =>
    simp only [hm, Option.isSome_none, Bool.false_eq_true, if_false]
    rw [seqOf_setEv_ne _ _ _ _ hne, seqOf_setEv_ne _ _ _ _ hne]
  | some l =>
    simp only [hm, Option.isSome_some, if_true]
    rw [seqOf_setEv_ne _ _ _ _ hne]

lemma seqOf_off_self (m : EMap) (e : String) (h : Handler) :
    seqOf (off m e h) e = (seqOf m e).filter (fun x => decide (x ≠ h)) := by
  unfold off
  cases hm : lookupEv m e with
  | none => simp [hm, seqOf]
  | some l => simp [hm, seqOf, lookupEv_setEv_self]

lemma seqOf_off_ne (m : EMap) (e e2 : String) (h : Handler) (hne : e2 ≠ e) :
    seqOf (off m e h) e2 = seqOf m e2 := by
  unfold off
  cases hm : lookupEv m e with
  | none => rfl
  | some l => exact seqOf_setEv_ne _ _ _ _ hne

lemma mem_seqOf_iff_toggle_cond (m : EMap) (e : String) (h : Handler) :
    (h ∈ (lookupEv m e).getD []) = (h ∈ seqOf m e) := rfl

/-- C7 (counterexample): with `h` subscribed to `"move"` at the head of the
handler list `[h, g]`, `off` removes it from its position and the second
`toggle` re-appends it at the END, yielding `[g, h]` — order differs from
the state before the first call, so double-`toggle` is not the identity. -/
theorem c7_counterexample :
    seqOf (toggle (toggle [("move", [0, 1])] "move" 0) "move" 0) "move" ≠
      seqOf [("move", [0, 1])] "move" := by
  simp [toggle, off, on', seqOf, lookupEv, setEv]

/-- C7 (amended): calling `toggle(e, h)` twice consecutively restores every
event's handler sequence (order and multiplicity included) PROVIDED `h`
occurs at most once in `e`'s sequence and, when present, is its last
element — in particular whenever `h` was only ever registered through
`toggle`. In general the first `toggle` removes every occurrence of `h`
(`off` filters all copies) and the second re-appends a single copy at the
end, so a handler in a non-final position (or registered twice) does not
return to its place. -/
theorem c7_double_toggle_restores_when_handler_last
    (m : EMap) (e : String) (h : Handler)
    (hpos : h ∉ seqOf m e ∨ ∃ l, seqOf m e = l ++ [h] ∧ h ∉ l) :
    ∀ e2, seqOf (toggle (toggle m e h) e h) e2 = seqOf m e2 := by
  have hfilter_drop : ∀ (l : List Handler), h ∉ l →
      l.filter (fun x => decide (x ≠ h)) = l := by
    intro l hl
    apply List.filter_eq_self.mpr
    intro a ha
    simp only [decide_eq_true_eq]
    exact fun hah => hl (hah ▸ ha)
  rcases hpos with hnot | ⟨l, hl, hnotl⟩
  · have ht1 : toggle m e h = on' m e h := by
      unfold toggle
      rw [if_neg]
      exact hnot
    have ht2 : toggle (on' m e h) e h = off (on' m e h) e h := by
      unfold toggle
      rw [if_pos]
      show h ∈ seqOf (on' m e h) e
      rw [seqOf_on_self]
      simp
    intro e2
    by_cases he2 : e2 = e
    · subst he2
      rw [ht1, ht2, seqOf_off_self, seqOf_on_self, List.filter_append,
        hfilter_drop _ hnot]
      simp
    · rw [ht1, ht2, seqOf_off_ne _ _ _ _ he2, seqOf_on_ne _ _ _ _ he2]
  · have hmem : h ∈ seqOf m e := by rw [hl]; simp
    have ht1 : toggle m e h = off m e h := by
      unfold toggle
      rw [if_pos]
      exact hmem
    have hs1 : seqOf (off m e h) e = l := by
      rw [seqOf_off_self, hl, List.filter_append, hfilter_drop _ hnotl]
      simp
    have ht2 : toggle (off m e h) e h = on' (off m e h) e h := by
      unfold toggle
      rw [if_neg]
      show h ∉ seqOf (off m e h) e
      rw [hs1]
      exact hnotl
    intro e2
    by_cases he2 : e2 = e
    · subst he2
      rw [ht1, ht2, seqOf_on_self, hs1, hl]
    · rw [ht1, ht2, seqOf_on_ne _ _ _ _ he2, seqOf_off_ne _ _ _ _ he2]

theorem c7_witness :
    ((0 : Handler) ∉ seqOf [("move", [1, 0])] "move" ∨
      ∃ l, seqOf [("move", [1, 0])] "move" = l ++ [0] ∧ (0 : Handler) ∉ l) ∧
    seqOf (toggle (toggle [("move", [1, 0])] "move" 0) "move" 0) "move" =
      seqOf [("move", [1, 0])] "move" :=
  ⟨Or.inr ⟨[1], rfl, by simp⟩,
    c7_double_toggle_restores_when_handler_last [("move", [1, 0])] "move" 0
      (Or.inr ⟨[1], rfl, by simp⟩) "move"⟩

lemma invokeAll_fst (beh : Handler → List BusOp) :
    ∀ (l : List Handler) (m : EMap), (invokeAll beh l m).1 = l
  | [], _ => rfl
  | h :: rest, m => by
    simp only [invokeAll]
    rw [invokeAll_fst beh rest]

/-- C10: the handler sequence one `emit` call invokes is fixed when the
dispatch starts. Whatever bus operations the executing handlers perform
mid-dispatch (`off` of themselves as the `once` wrapper does, `off` of other
handlers of the same event, `on`, `toggle` — any behaviour `beh`), the
dispatch invokes exactly the handlers registered for the event at dispatch
start, in registration order: `off` replaces the stored array with a fresh
filtered one, leaving the iterated snapshot untouched, and `forEach` does
not visit elements appended after it starts. -/
theorem c10_dispatch_uses_snapshot (beh : Handler → List BusOp) (m : EMap)
    (e : String) : (emit beh m e).1 = (lookupEv m e).getD [] := by
  unfold emit
  by_cases hemp : ((lookupEv m e).getD []).isEmpty
  · simp only [hemp, if_true]
    exact (List.isEmpty_iff.mp hemp).symm
  · simp only [hemp, Bool.false_eq_true, if_false]
    exact invokeAll_fst beh _ m

end EventEmitter

namespace ValidatedEmitter

/-- C6 (the code contradicts it): the claim says an invalid argument makes
the call a warn-and-no-op — the invalid handler is never registered and no
later publish throws. In the validated variant (part_011), `on` calls
`validateParams` but ignores its result: registering the non-callable value
`42` under `'evt'` logs the warning AND stores `42` in the listener list,
and a later `emit('evt')` throws a `TypeError` when `forEach` invokes it. -/
theorem c6_invalid_callback_registered_and_later_emit_throws :
    (vOn ⟨[], []⟩ (JSVal.str "evt") (JSCallback.notFn 42)).warnings =
      ["Callback must be a function"] ∧
    lookupEv (vOn ⟨[], []⟩ (JSVal.str "evt") (JSCallback.notFn 42)).events
      (JSVal.str "evt") = some [JSCallback.notFn 42] ∧
    vEmit (vOn ⟨[], []⟩ (JSVal.str "evt") (JSCallback.notFn 42))
      (JSVal.str "evt") = EmitOutcome.threwTypeError := by
  refine ⟨rfl, ?_, ?_⟩ <;>
    simp [vOn, vEmit, validateParams, lookupEv, setEv, invokeCallbacks]

end ValidatedEmitter

/-- C8: for the background-style consumer (maximum-shift percentage 75), the
target displacement computed from normalized axis value n against current
viewport dimension d is -round(n * 75 / 100 * d) pixels on each axis — sign
inverted relative to the pointer direction; in particular, for n = 0.4
(= 2/5) and d = 1920 the horizontal target displacement is -576 pixels. -/
theorem c8_background_displacement :
    (∀ nx ny w h : ℚ,
      (ParallaxBackground.calculateMovement nx ny w h).1 =
          -(roundJS (nx * 75 / 100 * w)) ∧
        (ParallaxBackground.calculateMovement nx ny w h).2 =
          -(roundJS (ny * 75 / 100 * h))) ∧
    (ParallaxBackground.calculateMovement (2/5) 0 1920 1080).1 = -576 := by
  constructor
  · exact fun nx ny w h => ⟨rfl, rfl⟩
  · norm_num [ParallaxBackground.calculateMovement,
      ParallaxBackground.maxShiftPercent, roundJS, Int.floor_eq_iff]

end BackgroundDrifter
